import Mathlib

/-!
Formal model of the chat server's subscription matcher and websocket
connection registry, translated from `app/services/subscriptions.py`,
`app/websocket_manager.py` and `app/main.py`.

Conventions of the embedding:
* Python dict fields read with `.get` become `Option` fields; a bare
  `dict[key]` access that can raise `KeyError` is modelled with
  `Except Unit`.
* Timestamps (`datetime` values and their ISO string forms round-tripped
  through `isoformat` / `fromisoformat`) are abstract: a parseable time
  value is `TimeVal.valid t` with `t : ℤ`; a string rejected by
  `datetime.fromisoformat` is `TimeVal.invalid`.  The `isoformat`
  serialisation steps of the Python code are identities in this model.
* Coordinates and radii (Python floats) are rationals; the haversine
  distance is a real number built from `Real.sin`, `Real.cos`,
  `Real.sqrt` and `Real.arcsin`.
* A live websocket is a `Handle` (a natural number); a `send_json` call
  that raises `RuntimeError` is modelled by membership of the handle in
  a `dead` list.  Python `set`s and `dict`s are modelled as lists,
  resp. association lists, with unique keys maintained by the update
  operations.
-/

namespace ChatServer

/-! ### Python string primitives -/

/-- Model of Python `str.lower()` (ASCII case folding, `Char.toLower`). -/
def pyLower (s : String) : String := ⟨s.data.map Char.toLower⟩

/-- Model of Python `str.strip()`: drop whitespace from both ends. -/
def pyStrip (s : String) : String :=
  ⟨((s.data.dropWhile Char.isWhitespace).reverse.dropWhile Char.isWhitespace).reverse⟩

/-- Auxiliary for the substring test: `needle` starts `hay`. -/
def isStartOf (needle hay : List Char) : Bool :=
  match needle, hay with
  | [], _ => true
  | _ :: _, [] => false
  | a :: as, b :: bs => a == b && isStartOf as bs

/-- Model of the Python substring test `needle in hay`. -/
def pyContains (hay needle : List Char) : Bool :=
  match hay with
  | [] => needle.isEmpty
  | c :: rest => isStartOf needle (c :: rest) || pyContains rest needle

/-- Python truthiness of an optional string (`None` and `""` are falsy). -/
def truthyStr : Option String → Bool
  | none => false
  | some v => !(v == "")

/-! ### Data model -/

/-- Stored location filter of a subscription (`where` sub-document).
All fields are `Option` because the matcher reads a raw Mongo document:
`latitude`/`longitude` are accessed with a raising `dict[key]`,
`radius_km` with `.get`. -/
structure LocFilter where
  latitude : Option ℚ
  longitude : Option ℚ
  radius_km : Option ℚ
deriving DecidableEq

/-- Location attached to a message; `latitude`/`longitude` are required
by the `Location` pydantic schema. -/
structure MsgLocation where
  latitude : ℚ
  longitude : ℚ
deriving DecidableEq

/-- Abstract timestamp: either a value `datetime.fromisoformat` accepts
(identified with an integer) or an unparseable string. -/
inductive TimeVal where
  | valid (t : ℤ)
  | invalid
deriving DecidableEq

/-- Stored subscription document as read back from the `subscriptions`
collection (fields accessed with `.get` are `Option`). -/
structure Subscription where
  user_id : String
  scope : Option String
  what : Option (List String)
  where_ : Option LocFilter
  when_start : Option ℤ
  when_end : Option ℤ
  room_id : Option String
  chat_id : Option String
deriving DecidableEq

/-- Stored message document as produced by `store_message` and fed to
`find_matching_subscriptions`; `scope` and `content` are always set by
`store_message`, the rest is optional. -/
structure Message where
  user_id : String
  content : String
  location : Option MsgLocation
  event_time : Option TimeVal
  scope : String
  room_id : Option String
  chat_id : Option String
  created_at : Option TimeVal
deriving DecidableEq

/-! ### Subscription matcher (`app/services/subscriptions.py`) -/

/-- Earth radius constant from `subscriptions.py`. -/
noncomputable def EARTH_RADIUS_KM : ℝ := 6371

/-- Model of `math.radians`: degrees to radians. -/
noncomputable def radiansOf (x : ℚ) : ℝ := (x : ℝ) * Real.pi / 180

/-- Translation of `_haversine_distance`: great-circle distance in km. -/
noncomputable def haversineDistance (lat1 lon1 lat2 lon2 : ℚ) : ℝ :=
  let dLat := radiansOf (lat2 - lat1)
  let dLon := radiansOf (lon2 - lon1)
  let a := Real.sin (dLat / 2) ^ 2 +
    Real.cos (radiansOf lat1) * Real.cos (radiansOf lat2) * Real.sin (dLon / 2) ^ 2
  let c := 2 * Real.arcsin (Real.sqrt a)
  EARTH_RADIUS_KM * c

/-- Translation of `_normalise_keywords`: keep words whose strip is
non-empty, stripped and lower-cased. -/
def normaliseKeywords (keywords : List String) : List String :=
  (keywords.filter (fun w => !((pyStrip w).data.isEmpty))).map (fun w => pyLower (pyStrip w))

/-- Translation of `_match_keywords`. -/
def matchKeywords (s : Subscription) (m : Message) : Bool :=
  let keywords := s.what.getD []
  if keywords.isEmpty then true
  else
    let content := pyLower m.content
    keywords.any (fun kw => pyContains content.data kw.data)

/-- Translation of `_match_scope`.  `subscription.get("scope", "any")`
is `Option.getD`; the `subscription.get("room_id") and ...` guards use
Python truthiness. -/
def matchScope (s : Subscription) (m : Message) : Bool :=
  let scope := s.scope.getD "any"
  if scope == "any" then true
  else if !(m.scope == scope) then false
  else if scope == "room" && truthyStr s.room_id && !(s.room_id == m.room_id) then false
  else if scope == "p2p" && truthyStr s.chat_id && !(s.chat_id == m.chat_id) then false
  else true

/-- Translation of `_match_location`.  The raising accesses
`sub_location["latitude"]` / `sub_location["longitude"]` are modelled
with `Except.error ()` (a `KeyError`); they are only reached after the
radius check, exactly as in the source. -/
noncomputable def matchLocationE (s : Subscription) (m : Message) : Except Unit Bool :=
  match s.where_ with
  | none => .ok true
  | some f =>
    match m.location with
    | none => .ok false
    | some ml =>
      let radius : ℚ := f.radius_km.getD 0
      if radius ≤ 0 then .ok true
      else
        match f.latitude with
        | none => .error ()
        | some la =>
          match f.longitude with
          | none => .error ()
          | some lo =>
            .ok (decide (haversineDistance la lo ml.latitude ml.longitude ≤ (radius : ℝ)))

/-- Raw event value of `_match_time`:
`message.get("event_time") or message.get("created_at")`. -/
def rawEventTime (m : Message) : Option TimeVal :=
  match m.event_time with
  | some v => some v
  | none => m.created_at

/-- Translation of `_match_time`.  An unparseable string
(`TimeVal.invalid`) returns `true`; the bound checks use the strict
comparisons of the source. -/
def matchTime (s : Subscription) (m : Message) : Bool :=
  match rawEventTime m with
  | none => true
  | some .invalid => true
  | some (.valid t) =>
    if (match s.when_start with | some a => decide (t < a) | none => false) then false
    else if (match s.when_end with | some b => decide (b < t) | none => false) then false
    else true

/-- Total version of the location predicate: a `KeyError` counts as a
non-match (used only to state what the filter keeps). -/
noncomputable def matchLocationB (s : Subscription) (m : Message) : Bool :=
  match matchLocationE s m with
  | .ok b => b
  | .error _ => false

/-- Four-way conjunction of the predicates in the order of line 162 of
`subscriptions.py`, with the `KeyError` of `_match_location`
propagated. -/
noncomputable def matchesE (s : Subscription) (m : Message) : Except Unit Bool :=
  if matchScope s m then
    if matchKeywords s m then
      match matchLocationE s m with
      | .error e => .error e
      | .ok locOk => if locOk then .ok (matchTime s m) else .ok false
    else .ok false
  else .ok false

/-- Four-way conjunction as a pure boolean. -/
noncomputable def matchesB (s : Subscription) (m : Message) : Bool :=
  matchScope s m && matchKeywords s m && matchLocationB s m && matchTime s m

/-- Coarse Mongo pre-filter of `find_matching_subscriptions`: the `$or`
query over the stored `scope` field, with the conditional
`room_id`/`chat_id` clauses appended when the message carries a truthy
id.  Mongo equality on a missing field never matches a string value,
hence the `Option` comparisons. -/
def preFilter (m : Message) (s : Subscription) : Bool :=
  s.scope == some "any" || s.scope == some m.scope ||
    (m.scope == "room" && truthyStr m.room_id &&
      s.scope == some "room" && s.room_id == m.room_id) ||
    (m.scope == "p2p" && truthyStr m.chat_id &&
      s.scope == some "p2p" && s.chat_id == m.chat_id)

/-- Cursor loop of `find_matching_subscriptions`: evaluate the four-way
match on each candidate, collect matches in order; an uncaught exception
aborts the whole pass (nothing is returned). -/
noncomputable def findLoop (m : Message) : List Subscription → Except Unit (List Subscription)
  | [] => .ok []
  | s :: rest =>
    match matchesE s m with
    | .error e => .error e
    | .ok true =>
      match findLoop m rest with
      | .error e => .error e
      | .ok r => .ok (s :: r)
    | .ok false => findLoop m rest

/-- Translation of `find_matching_subscriptions`: Mongo pre-filter, then
the matcher on every candidate.  The `isoformat` serialisation of the
matched documents is an identity here (timestamps are abstract). -/
noncomputable def findMatchingSubscriptionsE (subs : List Subscription) (m : Message) :
    Except Unit (List Subscription) :=
  findLoop m (subs.filter (preFilter m))

/-- Well-formedness of the stored location filter: latitude and
longitude present whenever the filter itself is (guaranteed by the
`Location` pydantic schema on the creation path). -/
def locWF (s : Subscription) : Bool :=
  match s.where_ with
  | none => true
  | some f => f.latitude.isSome && f.longitude.isSome

/-- Shape guaranteed by `create_subscription` for every stored
subscription: the `scope` field is always written (default `"any"`),
and a location filter always carries coordinates. -/
def createdWF (s : Subscription) : Bool :=
  s.scope.isSome && locWF s

/-! ### Spec-side predicates (wording of the specification) -/

/-- Spec wording of the time predicate: uses the event time if present,
else the creation time; absent entirely passes; unparseable passes;
otherwise not earlier than the start bound and not later than the end
bound, bounds inclusive. -/
def timeSpecB (s : Subscription) (m : Message) : Bool :=
  match rawEventTime m with
  | none => true
  | some .invalid => true
  | some (.valid t) =>
    (match s.when_start with | none => true | some a => decide (a ≤ t)) &&
    (match s.when_end with | none => true | some b => decide (t ≤ b))

/-- Spec wording of the scope predicate: `any` always passes; otherwise
the filter must equal the message's scope kind; a `room` filter carrying
a room id requires equality with the message's room id (no room id
matches any room); symmetric for `p2p` and the chat id.  Carrying an id
follows Python truthiness (`""` counts as absent). -/
def scopeSpecB (s : Subscription) (m : Message) : Bool :=
  let f := s.scope.getD "any"
  if f == "any" then true
  else if f == m.scope then
    if f == "room" then !(truthyStr s.room_id) || s.room_id == m.room_id
    else if f == "p2p" then !(truthyStr s.chat_id) || s.chat_id == m.chat_id
    else true
  else false

/-- Spec wording of the location predicate, amended to the code's
precedence: no filter passes; a filter with no message location fails;
with a message location, an absent/zero/negative radius passes; and
otherwise the haversine distance must be at most the radius. -/
def locationSpec (s : Subscription) (m : Message) : Prop :=
  match s.where_, m.location with
  | none, _ => True
  | some _, none => False
  | some f, some ml =>
    f.radius_km.getD 0 ≤ 0 ∨
      (∃ la lo, f.latitude = some la ∧ f.longitude = some lo ∧
        haversineDistance la lo ml.latitude ml.longitude ≤ ((f.radius_km.getD 0 : ℚ) : ℝ))

/-! ### Connection registry (`app/websocket_manager.py`) -/

/-- Opaque recipient handle (a live websocket). -/
abbrev Handle := Nat

/-- Association-list lookup (first match), modelling Python dict access. -/
def alookup {α β : Type} [DecidableEq α] : List (α × β) → α → Option β
  | [], _ => none
  | (k, v) :: rest, k' => if k = k' then some v else alookup rest k'

/-- Association-list update: replace in place or append, modelling
Python `d[k] = v`. -/
def aupdate {α β : Type} [DecidableEq α] : List (α × β) → α → β → List (α × β)
  | [], k, v => [(k, v)]
  | (k', v') :: rest, k, v =>
    if k' = k then (k, v) :: rest else (k', v') :: aupdate rest k v

/-- Association-list key removal, modelling Python `del d[k]`. -/
def aerase {α β : Type} [DecidableEq α] (l : List (α × β)) (k : α) : List (α × β) :=
  l.filter (fun p => decide (p.1 ≠ k))

/-- Keys of an association list. -/
def akeys {α β : Type} (l : List (α × β)) : List α :=
  l.map Prod.fst

/-- Python `set.add`: no-op when present, insert otherwise. -/
def setAdd (l : List Handle) (h : Handle) : List Handle :=
  if h ∈ l then l else l ++ [h]

/-- Python `set.discard`. -/
def setDiscard (l : List Handle) (h : Handle) : List Handle :=
  l.filter (fun x => decide (x ≠ h))

/-! #### `ConnectionManager` (common chat) -/

/-- Broadcast loop of `ConnectionManager.broadcast`: iterate over the
snapshot `list(self.active_connections)`; a dead handle raises and is
discarded from the live set, a live one is delivered to.  Returns the
final connection set and the successfully delivered handles. -/
def cmBroadcastLoop (dead : List Handle) :
    List Handle → List Handle → List Handle × List Handle
  | [], conns => (conns, [])
  | c :: rest, conns =>
    if c ∈ dead then cmBroadcastLoop dead rest (setDiscard conns c)
    else
      let r := cmBroadcastLoop dead rest conns
      (r.1, c :: r.2)

/-- Translation of `ConnectionManager.broadcast`. -/
def cmBroadcast (conns dead : List Handle) : List Handle × List Handle :=
  cmBroadcastLoop dead conns conns

/-! #### `RoomConnectionManager` -/

/-- Room registry: room id to member set. -/
abbrev Rooms := List (String × List Handle)

/-- Members of a room; `self.rooms.get(room_id, [])`. -/
def roomMembers (rooms : Rooms) (rid : String) : List Handle :=
  (alookup rooms rid).getD []

/-- Translation of `RoomConnectionManager.connect` (the defaultdict
creates the room on first join). -/
def roomConnect (rooms : Rooms) (rid : String) (h : Handle) : Rooms :=
  aupdate rooms rid (setAdd (roomMembers rooms rid) h)

/-- Translation of `RoomConnectionManager.disconnect`: guarded discard,
then the emptied room is deleted. -/
def roomDisconnect (rooms : Rooms) (rid : String) (h : Handle) : Rooms :=
  match alookup rooms rid with
  | none => rooms
  | some l =>
    if setDiscard l h = [] then aerase rooms rid
    else aupdate rooms rid (setDiscard l h)

/-- Discard in the broadcast exception handler:
`self.rooms[room_id].discard(connection)`, where indexing the
defaultdict creates an empty entry for an absent key. -/
def roomDiscardRaw (rooms : Rooms) (rid : String) (h : Handle) : Rooms :=
  match alookup rooms rid with
  | some l => aupdate rooms rid (setDiscard l h)
  | none => aupdate rooms rid []

/-- Broadcast loop of `RoomConnectionManager.broadcast` over the
snapshot of the room, self-healing failed handles. -/
def roomBroadcastLoop (rid : String) (dead : List Handle) :
    List Handle → Rooms → Rooms × List Handle
  | [], rooms => (rooms, [])
  | c :: rest, rooms =>
    if c ∈ dead then roomBroadcastLoop rid dead rest (roomDiscardRaw rooms rid c)
    else
      let r := roomBroadcastLoop rid dead rest rooms
      (r.1, c :: r.2)

/-- Translation of `RoomConnectionManager.broadcast`: snapshot, loop,
then delete the room if it ended up empty. -/
def roomBroadcast (rooms : Rooms) (rid : String) (dead : List Handle) :
    Rooms × List Handle :=
  let r := roomBroadcastLoop rid dead (roomMembers rooms rid) rooms
  (match alookup r.1 rid with
   | some [] => aerase r.1 rid
   | _ => r.1, r.2)

/-! #### `P2PConnectionManager` -/

/-- Session registry: session id to (participant id to handle). -/
abbrev Sessions := List (String × List (String × Handle))

/-- Participants of a session; `self.sessions.get(session_id, {})`. -/
def sessMembers (sessions : Sessions) (sid : String) : List (String × Handle) :=
  (alookup sessions sid).getD []

/-- Translation of `P2PConnectionManager.connect`:
`self.sessions[session_id][user_id] = websocket`. -/
def p2pConnect (sessions : Sessions) (sid uid : String) (h : Handle) : Sessions :=
  aupdate sessions sid (aupdate (sessMembers sessions sid) uid h)

/-- Translation of `P2PConnectionManager.disconnect`: remove the user's
entry if present, then delete the emptied session. -/
def p2pDisconnect (sessions : Sessions) (sid uid : String) : Sessions :=
  match alookup sessions sid with
  | none => sessions
  | some inner =>
    if (alookup inner uid).isSome then
      if aerase inner uid = [] then aerase sessions sid
      else aupdate sessions sid (aerase inner uid)
    else sessions

/-- Send loop of `P2PConnectionManager.send` over the session snapshot:
excluded identities are skipped before any send; a failing send removes
that user (and the emptied session), exactly the `disconnect` logic.
Returns the final sessions and the `(user, handle)` pairs `send_json`
was called on. -/
def p2pSendLoop (sid : String) (excl : List String) (dead : List Handle) :
    List (String × Handle) → Sessions → Sessions × List (String × Handle)
  | [], sessions => (sessions, [])
  | (u, c) :: rest, sessions =>
    if u ∈ excl then p2pSendLoop sid excl dead rest sessions
    else if c ∈ dead then
      let r := p2pSendLoop sid excl dead rest (p2pDisconnect sessions sid u)
      (r.1, (u, c) :: r.2)
    else
      let r := p2pSendLoop sid excl dead rest sessions
      (r.1, (u, c) :: r.2)

/-- Translation of `P2PConnectionManager.send`. -/
def p2pSend (sessions : Sessions) (sid : String) (excl : List String)
    (dead : List Handle) : Sessions × List (String × Handle) :=
  p2pSendLoop sid excl dead (sessMembers sessions sid) sessions

/-- The p2p websocket path of `main.py`:
`p2p_manager.send(session_id, stored, exclude={message.user_id})`. -/
def p2pPathSend (sessions : Sessions) (sid : String) (m : Message)
    (dead : List Handle) : Sessions × List (String × Handle) :=
  p2pSend sessions sid [m.user_id] dead

/-! #### `SubscriptionConnectionManager` -/

/-- User-notification registry: user id to connection set. -/
abbrev Users := List (String × List Handle)

/-- Translation of `SubscriptionConnectionManager.disconnect`: guarded
discard, then the emptied user entry is deleted. -/
def subDisconnect (users : Users) (uid : String) (h : Handle) : Users :=
  match alookup users uid with
  | none => users
  | some l =>
    if setDiscard l h = [] then aerase users uid
    else aupdate users uid (setDiscard l h)

/-- Notify loop of `SubscriptionConnectionManager.notify`: a failing
send discards just that connection via `self.users[user_id].discard`
(defaultdict indexing creates an empty entry for an absent key); the
user entry itself is never deleted. -/
def subNotifyLoop (uid : String) (dead : List Handle) :
    List Handle → Users → Users
  | [], users => users
  | c :: rest, users =>
    if c ∈ dead then
      subNotifyLoop uid dead rest
        (match alookup users uid with
         | some l => aupdate users uid (setDiscard l c)
         | none => aupdate users uid [])
    else subNotifyLoop uid dead rest users

/-- Translation of `SubscriptionConnectionManager.notify` (state
effect). -/
def subNotify (users : Users) (uid : String) (dead : List Handle) : Users :=
  subNotifyLoop uid dead ((alookup users uid).getD []) users

/-! ### Replay operations for the registry membership property -/

/-- Join/leave operations on one session key of the p2p manager. -/
inductive P2POp where
  | join (uid : String) (h : Handle)
  | leave (uid : String)

/-- Apply one operation to the p2p manager state. -/
def p2pApply (sid : String) (sessions : Sessions) : P2POp → Sessions
  | .join uid h => p2pConnect sessions sid uid h
  | .leave uid => p2pDisconnect sessions sid uid

/-- Replay a sequence of operations from the empty registry. -/
def p2pReplay (sid : String) (ops : List P2POp) : Sessions :=
  ops.foldl (p2pApply sid) []

/-- Spec-side step: the most recent join wins, a subsequent leave
removes the identity. -/
def lastJoinStep (uid : String) (acc : Option Handle) : P2POp → Option Handle
  | .join u h => if u = uid then some h else acc
  | .leave u => if u = uid then none else acc

/-- Spec-side membership after a replay: handle of the most recent join
of `uid` not followed by a leave of `uid`. -/
def lastJoinP2P (ops : List P2POp) (uid : String) : Option Handle :=
  ops.foldl (lastJoinStep uid) none

/-- Join/leave operations on one room key of the room manager. -/
inductive RoomOp where
  | join (h : Handle)
  | leave (h : Handle)

/-- Apply one operation to the room manager state. -/
def roomApply (rid : String) (rooms : Rooms) : RoomOp → Rooms
  | .join h => roomConnect rooms rid h
  | .leave h => roomDisconnect rooms rid h

/-- Replay a sequence of room operations from the empty registry. -/
def roomReplay (rid : String) (ops : List RoomOp) : Rooms :=
  ops.foldl (roomApply rid) []

/-- Spec-side step for rooms: member iff the last operation mentioning
the handle is a join. -/
def joinedStep (h : Handle) (acc : Bool) : RoomOp → Bool
  | .join h' => if h' = h then true else acc
  | .leave h' => if h' = h then false else acc

/-- Spec-side membership after a room replay: joined and not
subsequently left. -/
def joinedNotLeft (ops : List RoomOp) (h : Handle) : Bool :=
  ops.foldl (joinedStep h) false

/-! ### Concrete sample documents (used by witnesses and counterexamples) -/

/-- Malformed stored subscription: `any` scope, positive radius, but no
latitude/longitude in the location filter. -/
def subMissingLat : Subscription :=
  { user_id := "u1", scope := some "any", what := none,
    where_ := some { latitude := none, longitude := none, radius_km := some 5 },
    when_start := none, when_end := none, room_id := none, chat_id := none }

/-- Malformed stored subscription without a `scope` field. -/
def subNoScope : Subscription :=
  { user_id := "u1", scope := none, what := none, where_ := none,
    when_start := none, when_end := none, room_id := none, chat_id := none }

/-- Well-formed room subscription with a normalised keyword list and a
time window. -/
def subRoomUrgent : Subscription :=
  { user_id := "u2", scope := some "room", what := some (normaliseKeywords ["  Urgent "]),
    where_ := none, when_start := some 50, when_end := some 150,
    room_id := some "R1", chat_id := none }

/-- Well-formed open subscription whose location filter has no radius
(the filter is disabled). -/
def subAnyRadius : Subscription :=
  { user_id := "u3", scope := some "any", what := some [],
    where_ := some { latitude := some 0, longitude := some 0, radius_km := none },
    when_start := none, when_end := none, room_id := none, chat_id := none }

/-- Room message with content, a location and a valid creation time. -/
def msgRoom : Message :=
  { user_id := "alice", content := "This is URGENT now",
    location := some { latitude := 0, longitude := 1 / 20 },
    event_time := none, scope := "room", room_id := some "R1", chat_id := none,
    created_at := some (.valid 100) }

/-- Common-scope message carrying a location. -/
def msgCommon : Message :=
  { user_id := "bob", content := "hi",
    location := some { latitude := 0, longitude := 0 },
    event_time := none, scope := "common", room_id := none, chat_id := none,
    created_at := some (.valid 0) }

/-- Common-scope message without a location. -/
def msgNoLoc : Message :=
  { user_id := "bob", content := "hi", location := none,
    event_time := none, scope := "common", room_id := none, chat_id := none,
    created_at := some (.valid 0) }

/-! ### String lemmas -/

/-- Valid code points round-trip through `Char.ofNat`. -/
theorem char_toNat_ofNat {n : ℕ} (h : n < 55296) : (Char.ofNat n).toNat = n := by
  have hv : n.isValidChar := Or.inl h
  simp [Char.ofNat, hv, Char.ofNatAux, Char.toNat, UInt32.toNat]

/-- ASCII lower-casing is idempotent. -/
theorem char_toLower_idem (c : Char) : c.toLower.toLower = c.toLower := by
  unfold Char.toLower
  by_cases h : c.toNat ≥ 65 ∧ c.toNat ≤ 90
  · rw [if_pos h, char_toNat_ofNat (by omega), if_neg (by omega)]
  · rw [if_neg h, if_neg h]

/-- Python lower-casing is idempotent. -/
theorem pyLower_pyLower (s : String) : pyLower (pyLower s) = pyLower s := by
  have hf : Char.toLower ∘ Char.toLower = Char.toLower := funext char_toLower_idem
  show String.mk ((s.data.map Char.toLower).map Char.toLower)
      = String.mk (s.data.map Char.toLower)
  rw [List.map_map, hf]

/-- Every normalised keyword is a lower-casing fixpoint. -/
theorem pyLower_of_mem_normalise {kw : String} {ws : List String}
    (h : kw ∈ normaliseKeywords ws) : pyLower kw = kw := by
  unfold normaliseKeywords at h
  obtain ⟨w, _, hw⟩ := List.mem_map.mp h
  rw [← hw, pyLower_pyLower]

theorem isStartOf_nil (hay : List Char) : isStartOf [] hay = true := rfl

theorem isStartOf_cons_nil (a : Char) (as : List Char) :
    isStartOf (a :: as) [] = false := rfl

theorem isStartOf_cons_cons (a b : Char) (as bs : List Char) :
    isStartOf (a :: as) (b :: bs) = (a == b && isStartOf as bs) := rfl

theorem pyContains_nil (needle : List Char) :
    pyContains [] needle = needle.isEmpty := rfl

theorem pyContains_cons (c : Char) (rest needle : List Char) :
    pyContains (c :: rest) needle
      = (isStartOf needle (c :: rest) || pyContains rest needle) := rfl

/-- Prefix test agrees with list prefixes. -/
theorem isStartOf_iff (needle hay : List Char) :
    isStartOf needle hay = true ↔ needle <+: hay := by
  induction needle generalizing hay with
  | nil => exact ⟨fun _ => List.nil_prefix, fun _ => rfl⟩
  | cons a as ih =>
    cases hay with
    | nil =>
      rw [isStartOf_cons_nil]
      constructor
      · intro h
        exact absurd h (by simp)
      · intro hpre
        have hlen := hpre.length_le
        simp only [List.length_cons, List.length_nil] at hlen
        omega
    | cons b bs => simp [isStartOf_cons_cons, ih, List.cons_prefix_cons]

/-- Python substring containment agrees with list infixes. -/
theorem pyContains_iff (hay needle : List Char) :
    pyContains hay needle = true ↔ needle <:+: hay := by
  induction hay with
  | nil => simp [pyContains_nil, List.isEmpty_iff]
  | cons c rest ih =>
    simp [pyContains_cons, isStartOf_iff, ih, List.infix_cons_iff]

/-! ### Claim C4: the time predicate -/

/-- C4: for every subscription and message, the time predicate evaluates
the message's event time if present, else its creation time; if both are
absent it passes; otherwise it passes iff the time is not earlier than
`when_start` (when present) and not later than `when_end` (when
present), bounds inclusive; an unparseable event-time passes fail-open. -/
theorem c4_time_predicate (s : Subscription) (m : Message) :
    matchTime s m = timeSpecB s m := by
  unfold matchTime timeSpecB
  cases rawEventTime m with
  | none => rfl
  | some tv =>
    cases tv with
    | invalid => rfl
    | valid t =>
      rcases s.when_start with _ | a <;> rcases s.when_end with _ | b
      · rfl
      · by_cases hb : b < t
        · simp [hb, Int.not_le.mpr hb]
        · simp [hb, Int.not_lt.mp hb]
      · by_cases ha : t < a
        · simp [ha, Int.not_le.mpr ha]
        · simp [ha, Int.not_lt.mp ha]
      · by_cases ha : t < a
        · simp [ha, Int.not_le.mpr ha]
        · by_cases hb : b < t
          · simp [ha, hb, Int.not_le.mpr hb, Int.not_lt.mp ha]
          · simp [ha, hb, Int.not_lt.mp ha, Int.not_lt.mp hb]

/-! ### Claim C6: the scope predicate -/

/-- C6: the scope predicate passes when the filter is `any`; otherwise
it fails when the filter differs from the message's scope kind; a `room`
filter carrying a room id additionally requires equality with the
message's room id (no room id matches any room), symmetrically for
`p2p` and the chat id. -/
theorem c6_scope_predicate (s : Subscription) (m : Message) :
    matchScope s m = scopeSpecB s m := by
  unfold matchScope scopeSpecB
  generalize s.scope.getD "any" = f
  by_cases hany : f = "any"
  · simp [hany]
  · by_cases heq : m.scope = f
    · by_cases hroom : f = "room"
      · subst hroom
        simp only [beq_iff_eq, hany, heq, if_false, if_true]
        simp [hany, heq]
        by_cases hid : s.room_id = m.room_id <;>
          cases htr : truthyStr s.room_id <;> simp [hid, htr]
      · by_cases hp2p : f = "p2p"
        · subst hp2p
          simp only [beq_iff_eq, hany, heq, if_false, if_true]
          simp [hany, heq]
          by_cases hid : s.chat_id = m.chat_id <;>
            cases htr : truthyStr s.chat_id <;> simp [hid, htr]
        · simp [beq_iff_eq, hany, heq, hroom, hp2p]
    · simp [beq_iff_eq, hany, heq, Ne.symm heq]


/-- Split a boolean conjunction hypothesis. -/
theorem bool_and_true {a b : Bool} (h : (a && b) = true) : a = true ∧ b = true := by
  simp only [Bool.and_eq_true] at h
  exact h

/-! ### Claim C7: the keyword predicate -/

/-- C7: for a subscription whose keyword list went through
`_normalise_keywords` (as `create_subscription` guarantees), the keyword
predicate passes iff the list is empty or some keyword occurs as a
case-insensitive substring of the message content. -/
theorem c7_keyword_predicate (s : Subscription) (m : Message) (ws : List String)
    (h : s.what = some (normaliseKeywords ws)) :
    matchKeywords s m = true ↔
      (normaliseKeywords ws = [] ∨
        ∃ kw ∈ normaliseKeywords ws,
          (pyLower kw).data <:+: (pyLower m.content).data) := by
  unfold matchKeywords
  rw [h]
  simp only [Option.getD_some]
  by_cases hemp : normaliseKeywords ws = []
  · simp [hemp]
  · rw [if_neg (by simpa [List.isEmpty_iff] using hemp)]
    constructor
    · intro hm
      obtain ⟨kw, hkw, hc⟩ := List.any_eq_true.mp hm
      exact Or.inr ⟨kw, hkw, by
        rw [pyLower_of_mem_normalise hkw]
        exact (pyContains_iff _ _).mp hc⟩
    · rintro (hc | ⟨kw, hkw, hc⟩)
      · exact absurd hc hemp
      · refine List.any_eq_true.mpr ⟨kw, hkw, ?_⟩
        rw [pyLower_of_mem_normalise hkw] at hc
        exact (pyContains_iff _ _).mpr hc

/-- Witness for C7 at a concrete normalised subscription and message. -/
theorem c7_keyword_predicate_witness :
    subRoomUrgent.what = some (normaliseKeywords ["  Urgent "]) ∧
      (matchKeywords subRoomUrgent msgRoom = true ↔
        (normaliseKeywords ["  Urgent "] = [] ∨
          ∃ kw ∈ normaliseKeywords ["  Urgent "],
            (pyLower kw).data <:+: (pyLower msgRoom.content).data)) :=
  ⟨rfl, c7_keyword_predicate subRoomUrgent msgRoom ["  Urgent "] rfl⟩

/-! ### Claim C5: the location predicate -/

/-- C5 (amended): the location predicate passes when the subscription
has no location filter; fails when it has one but the message has no
location, regardless of the radius; with a message location present it
passes whenever the radius is absent, zero or negative; and otherwise
passes iff the haversine distance (Earth radius 6371.0 km) between the
coordinates is at most the radius.  On a filter carrying coordinates it
never raises. -/
theorem c5_location_predicate (s : Subscription) (m : Message)
    (h : locWF s = true) :
    (∃ b, matchLocationE s m = .ok b) ∧
      (matchLocationE s m = .ok true ↔ locationSpec s m) := by
  cases hw : s.where_ with
  | none => simp [matchLocationE, locationSpec, hw]
  | some f =>
    have h' : (f.latitude.isSome && f.longitude.isSome) = true := by
      unfold locWF at h
      rw [hw] at h
      exact h
    cases hl : m.location with
    | none => simp [matchLocationE, locationSpec, hw, hl]
    | some ml =>
      by_cases hr : f.radius_km.getD 0 ≤ 0
      · simp [matchLocationE, locationSpec, hw, hl, hr]
      · obtain ⟨la, hla⟩ := Option.isSome_iff_exists.mp (bool_and_true h').1
        obtain ⟨lo, hlo⟩ := Option.isSome_iff_exists.mp (bool_and_true h').2
        simp [matchLocationE, locationSpec, hw, hl, hr, hla, hlo]

/-- C5 counterexample: the claim says a filter with an absent radius
passes regardless of the message location, but on a message without a
location the code fails the subscription before consulting the
radius. -/
theorem c5_location_counterexample :
    matchLocationE subAnyRadius msgNoLoc = .ok false := rfl

/-- Witness for C5 at a concrete well-formed subscription and message. -/
theorem c5_location_predicate_witness :
    locWF subAnyRadius = true ∧
      ((∃ b, matchLocationE subAnyRadius msgCommon = .ok b) ∧
        (matchLocationE subAnyRadius msgCommon = .ok true ↔
          locationSpec subAnyRadius msgCommon)) :=
  ⟨by decide, c5_location_predicate subAnyRadius msgCommon (by decide)⟩

/-! ### Claim C1: find_matching_subscriptions -/

/-- With coordinates present the location predicate never raises and
agrees with its boolean version. -/
theorem matchLocationE_isOk (s : Subscription) (m : Message) (h : locWF s = true) :
    matchLocationE s m = .ok (matchLocationB s m) := by
  have hex : ∃ b, matchLocationE s m = .ok b := by
    cases hw : s.where_ with
    | none => exact ⟨true, by simp [matchLocationE, hw]⟩
    | some f =>
      have h' : (f.latitude.isSome && f.longitude.isSome) = true := by
        unfold locWF at h
        rw [hw] at h
        exact h
      cases hl : m.location with
      | none => exact ⟨false, by simp [matchLocationE, hw, hl]⟩
      | some ml =>
        by_cases hr : f.radius_km.getD 0 ≤ 0
        · exact ⟨true, by simp [matchLocationE, hw, hl, hr]⟩
        · obtain ⟨la, hla⟩ := Option.isSome_iff_exists.mp (bool_and_true h').1
          obtain ⟨lo, hlo⟩ := Option.isSome_iff_exists.mp (bool_and_true h').2
          exact ⟨decide (haversineDistance la lo ml.latitude ml.longitude ≤
              ((f.radius_km.getD 0 : ℚ) : ℝ)),
            by simp [matchLocationE, hw, hl, hr, hla, hlo]⟩
  obtain ⟨b, hb⟩ := hex
  rw [hb]
  unfold matchLocationB
  rw [hb]

/-- With a well-formed location filter the short-circuit conjunction of
the four predicates never raises and equals the boolean conjunction. -/
theorem matchesE_eq_ok (s : Subscription) (m : Message) (h : locWF s = true) :
    matchesE s m = .ok (matchesB s m) := by
  unfold matchesE matchesB
  rw [matchLocationE_isOk s m h]
  cases hsc : matchScope s m <;> cases hk : matchKeywords s m <;>
    cases hb : matchLocationB s m <;> simp [hsc, hk, hb]

/-- A stored scope field accepted by the matcher is also kept by the
Mongo pre-filter. -/
theorem matchScope_preFilter (s : Subscription) (m : Message)
    (hs : s.scope.isSome = true) (h : matchScope s m = true) :
    preFilter m s = true := by
  obtain ⟨str, hstr⟩ := Option.isSome_iff_exists.mp hs
  unfold matchScope at h
  unfold preFilter
  rw [hstr] at h ⊢
  simp only [Option.getD_some] at h
  by_cases ha : str = "any"
  · subst ha
    simp
  · by_cases hm : m.scope = str
    · subst hm
      simp
    · rw [if_neg (by simpa using ha), if_pos (by simp [hm])] at h
      exact absurd h (by simp)

/-- Cursor loop on well-formed candidates: no abort, and exactly the
boolean matches are kept, in order. -/
theorem findLoop_eq (m : Message) (l : List Subscription)
    (h : ∀ s ∈ l, locWF s = true) :
    findLoop m l = .ok (l.filter (fun s => matchesB s m)) := by
  induction l with
  | nil => rfl
  | cons s rest ih =>
    unfold findLoop
    rw [matchesE_eq_ok s m (h s (List.mem_cons_self s rest))]
    rw [ih (fun x hx => h x (List.mem_cons_of_mem s hx))]
    cases hb : matchesB s m <;> simp [List.filter_cons, hb]

/-- C1: on stored (well-formed) subscriptions,
`find_matching_subscriptions` returns exactly the subscriptions for
which the four predicates hold in order, and the coarse scope
pre-filter never drops a subscription the full four-way match
accepts. -/
theorem c1_find_matching_subscriptions (subs : List Subscription) (m : Message)
    (h : ∀ s ∈ subs, createdWF s = true) :
    findMatchingSubscriptionsE subs m = .ok (subs.filter (fun s => matchesB s m)) ∧
      ∀ s ∈ subs, matchesB s m = true → preFilter m s = true := by
  have hwf : ∀ s ∈ subs, locWF s = true := fun s hs =>
    (bool_and_true (h s hs)).2
  have hpre : ∀ s ∈ subs, matchesB s m = true → preFilter m s = true := by
    intro s hs hB
    have hscope : matchScope s m = true := by
      unfold matchesB at hB
      simp only [Bool.and_eq_true] at hB
      exact hB.1.1.1
    exact matchScope_preFilter s m (bool_and_true (h s hs)).1 hscope
  refine ⟨?_, hpre⟩
  unfold findMatchingSubscriptionsE
  rw [findLoop_eq m _ (fun s hs => hwf s (List.mem_of_mem_filter hs))]
  rw [List.filter_filter]
  congr 1
  apply List.filter_congr
  intro x hx
  cases hB : matchesB x m
  · simp
  · simp [hpre x hx hB]

/-- Witness for C1 at a concrete store and message. -/
theorem c1_find_matching_subscriptions_witness :
    (∀ s ∈ [subRoomUrgent, subAnyRadius], createdWF s = true) ∧
      findMatchingSubscriptionsE [subRoomUrgent, subAnyRadius] msgRoom
        = .ok ([subRoomUrgent, subAnyRadius].filter (fun s => matchesB s msgRoom)) ∧
      ∀ s ∈ [subRoomUrgent, subAnyRadius], matchesB s msgRoom = true →
        preFilter msgRoom s = true := by
  have h : ∀ s ∈ [subRoomUrgent, subAnyRadius], createdWF s = true := by decide
  have t := c1_find_matching_subscriptions [subRoomUrgent, subAnyRadius] msgRoom h
  exact ⟨h, t.1, t.2⟩

/-! ### Claim C2: malformed stored subscriptions -/

/-- C2: evaluation at the failing inputs.  A subscription whose location
filter lacks coordinates raises a `KeyError` that aborts the whole
dispatch pass (the well-formed candidate after it, which alone would
have matched, is lost), and a subscription stored without a scope field
is treated as scope `any` and matches (fail-open) instead of being
treated as a non-match. -/
theorem c2_malformed_subscription_eval :
    findMatchingSubscriptionsE [subMissingLat, subAnyRadius] msgCommon = .error () ∧
      findMatchingSubscriptionsE [subAnyRadius] msgCommon = .ok [subAnyRadius] ∧
      matchesE subMissingLat msgCommon = .error () ∧
      matchesE subNoScope msgCommon = .ok true :=
  ⟨rfl, rfl, rfl, rfl⟩


/-! ### Association list lemmas -/

theorem alookup_aupdate {α β : Type} [DecidableEq α] (l : List (α × β)) (k k' : α) (v : β) :
    alookup (aupdate l k v) k' = if k = k' then some v else alookup l k' := by
  induction l with
  | nil =>
    by_cases h : k = k' <;> simp [aupdate, alookup, h]
  | cons p rest ih =>
    obtain ⟨k0, v0⟩ := p
    by_cases h0 : k0 = k
    · subst h0
      rw [show aupdate ((k0, v0) :: rest) k0 v = (k0, v) :: rest from by simp [aupdate]]
      by_cases h1 : k0 = k' <;> simp [alookup, h1]
    · rw [show aupdate ((k0, v0) :: rest) k v = (k0, v0) :: aupdate rest k v from by
        simp [aupdate, h0]]
      by_cases h1 : k0 = k'
      · subst h1
        have hkk : ¬ k = k0 := fun hk => h0 hk.symm
        simp [alookup, hkk]
      · simp [alookup, h1, ih]

theorem alookup_aerase {α β : Type} [DecidableEq α] (l : List (α × β)) (k k' : α) :
    alookup (aerase l k) k' = if k = k' then none else alookup l k' := by
  induction l with
  | nil => by_cases h : k = k' <;> simp [aerase, alookup, h]
  | cons p rest ih =>
    obtain ⟨k0, v0⟩ := p
    unfold aerase at ih ⊢
    rw [List.filter_cons]
    by_cases h0 : k0 = k
    · subst h0
      rw [if_neg (by simp)]
      rw [ih]
      by_cases h1 : k0 = k'
      · subst h1
        simp
      · simp [alookup, h1]
    · rw [if_pos (by simp [h0])]
      by_cases h1 : k0 = k'
      · subst h1
        have hkk : ¬ k = k0 := fun hk => h0 hk.symm
        simp [alookup, hkk]
      · rw [show alookup ((k0, v0) :: List.filter (fun p => decide (p.1 ≠ k)) rest) k'
              = alookup (List.filter (fun p => decide (p.1 ≠ k)) rest) k' from by
            simp [alookup, h1]]
        rw [show alookup ((k0, v0) :: rest) k' = alookup rest k' from by simp [alookup, h1]]
        exact ih

theorem akeys_aupdate {α β : Type} [DecidableEq α] (l : List (α × β)) (k : α) (v : β)
    (h : (alookup l k).isSome = true) : akeys (aupdate l k v) = akeys l := by
  induction l with
  | nil => simp [alookup] at h
  | cons p rest ih =>
    obtain ⟨k0, v0⟩ := p
    by_cases h0 : k0 = k
    · subst h0
      rw [show aupdate ((k0, v0) :: rest) k0 v = (k0, v) :: rest from by simp [aupdate]]
      simp [akeys]
    · rw [show aupdate ((k0, v0) :: rest) k v = (k0, v0) :: aupdate rest k v from by
        simp [aupdate, h0]]
      have h' : (alookup rest k).isSome = true := by
        rw [show alookup ((k0, v0) :: rest) k = alookup rest k from by simp [alookup, h0]] at h
        exact h
      rw [show akeys ((k0, v0) :: aupdate rest k v) = k0 :: akeys (aupdate rest k v) from rfl]
      rw [ih h']
      rfl

theorem akeys_aerase {α β : Type} [DecidableEq α] (l : List (α × β)) (k : α) :
    akeys (aerase l k) = (akeys l).filter (fun x => decide (x ≠ k)) := by
  induction l with
  | nil => rfl
  | cons p rest ih =>
    obtain ⟨k0, v0⟩ := p
    unfold aerase at ih ⊢
    rw [List.filter_cons]
    by_cases h0 : k0 = k
    · subst h0
      rw [if_neg (by simp)]
      rw [ih]
      rw [show akeys ((k0, v0) :: rest) = k0 :: akeys rest from rfl, List.filter_cons]
      rw [if_neg (by simp)]
    · rw [if_pos (by simp [h0])]
      rw [show akeys ((k0, v0) :: List.filter (fun p => decide (p.1 ≠ k)) rest)
            = k0 :: akeys (List.filter (fun p => decide (p.1 ≠ k)) rest) from rfl]
      rw [ih]
      rw [show akeys ((k0, v0) :: rest) = k0 :: akeys rest from rfl, List.filter_cons]
      rw [if_pos (by simp [h0])]

theorem alookup_none_of_aerase_nil {α β : Type} [DecidableEq α] {l : List (α × β)} {k : α}
    (h : aerase l k = []) {k' : α} (hk : k' ≠ k) : alookup l k' = none := by
  induction l with
  | nil => rfl
  | cons p rest ih =>
    obtain ⟨k0, v0⟩ := p
    unfold aerase at h ih
    rw [List.filter_cons] at h
    by_cases h0 : k0 = k
    · subst h0
      rw [if_neg (by simp)] at h
      have hkn : ¬ k0 = k' := fun he => hk he.symm
      rw [show alookup ((k0, v0) :: rest) k' = alookup rest k' from by
        simp [alookup, hkn]]
      exact ih h
    · rw [if_pos (by simp [h0])] at h
      exact absurd h (by simp)

/-! ### Set-model lemmas -/

theorem mem_setDiscard {l : List Handle} {h x : Handle} :
    x ∈ setDiscard l h ↔ x ∈ l ∧ x ≠ h := by
  unfold setDiscard
  simp [List.mem_filter]

theorem eq_of_setDiscard_nil {l : List Handle} {h : Handle}
    (hn : setDiscard l h = []) : ∀ x ∈ l, x = h := by
  intro x hx
  by_contra hne
  have hmem : x ∈ setDiscard l h := mem_setDiscard.mpr ⟨hx, hne⟩
  rw [hn] at hmem
  exact absurd hmem (List.not_mem_nil x)

theorem mem_setAdd {l : List Handle} {h x : Handle} :
    x ∈ setAdd l h ↔ x ∈ l ∨ x = h := by
  unfold setAdd
  by_cases hm : h ∈ l
  · rw [if_pos hm]
    constructor
    · intro hx
      exact Or.inl hx
    · rintro (hx | rfl)
      · exact hx
      · exact hm
  · rw [if_neg hm]
    simp [List.mem_append]


/-! ### Claim C10: notify preserves the user key set -/

/-- The notify loop keeps the key set whenever the user entry exists. -/
theorem subNotifyLoop_keys (uid : String) (dead : List Handle) (snap : List Handle)
    (users : Users) (h : (alookup users uid).isSome = true) :
    akeys (subNotifyLoop uid dead snap users) = akeys users := by
  induction snap generalizing users with
  | nil => rfl
  | cons c rest ih =>
    by_cases hc : c ∈ dead
    · obtain ⟨l, hl⟩ := Option.isSome_iff_exists.mp h
      rw [show subNotifyLoop uid dead (c :: rest) users
            = subNotifyLoop uid dead rest (aupdate users uid (setDiscard l c)) from by
          simp [subNotifyLoop, hc, hl]]
      have h2 : (alookup (aupdate users uid (setDiscard l c)) uid).isSome = true := by
        rw [alookup_aupdate]
        simp
      rw [ih _ h2]
      exact akeys_aupdate users uid _ h
    · rw [show subNotifyLoop uid dead (c :: rest) users
            = subNotifyLoop uid dead rest users from by simp [subNotifyLoop, hc]]
      exact ih users h

/-- The state effect of notify keeps the key set. -/
theorem subNotify_keys (users : Users) (uid : String) (dead : List Handle) :
    akeys (subNotify users uid dead) = akeys users := by
  unfold subNotify
  cases h : alookup users uid with
  | none => rfl
  | some l =>
    exact subNotifyLoop_keys uid dead ((some l).getD []) users (by rw [h]; rfl)

/-- C10: notify never adds and never removes a user entry, even when
self-healing failed deliveries leaves a user's connection set empty;
only disconnect removes an emptied user entry. -/
theorem c10_notify_preserves_users (users : Users) (uid : String)
    (dead : List Handle) (hdl : Handle) :
    akeys (subNotify users uid dead) = akeys users ∧
      (∀ l, alookup users uid = some l → setDiscard l hdl = [] →
        akeys (subDisconnect users uid hdl)
          = (akeys users).filter (fun x => decide (x ≠ uid))) := by
  refine ⟨subNotify_keys users uid dead, ?_⟩
  intro l hl hnil
  have hd : subDisconnect users uid hdl = aerase users uid := by
    unfold subDisconnect
    rw [hl]
    simp [hnil]
  rw [hd, akeys_aerase]

/-- Witness for C10 at a concrete registry. -/
theorem c10_notify_preserves_users_witness :
    akeys (subNotify [("u", [1, 2])] "u" [1]) = akeys [("u", [1, 2])] ∧
      akeys (subDisconnect [("u", [2])] "u" 2)
        = (akeys [("u", [2])]).filter (fun x => decide (x ≠ "u")) := by
  refine ⟨(c10_notify_preserves_users [("u", [1, 2])] "u" [1] 0).1, ?_⟩
  exact (c10_notify_preserves_users [("u", [2])] "u" [] 2).2 [2] rfl rfl


/-! ### Claim C8: registry membership under replay -/

/-- Updating a session rewrites its member map. -/
theorem sessMembers_aupdate_self (sessions : Sessions) (sid : String)
    (inner : List (String × Handle)) :
    sessMembers (aupdate sessions sid inner) sid = inner := by
  unfold sessMembers
  rw [alookup_aupdate]
  simp

/-- One p2p operation moves the looked-up handle exactly as the
most-recent-join-wins step function does. -/
theorem p2p_step (sid uid : String) (st : Sessions) (op : P2POp) :
    alookup (sessMembers (p2pApply sid st op) sid) uid
      = lastJoinStep uid (alookup (sessMembers st sid) uid) op := by
  cases op with
  | join u h =>
    show alookup (sessMembers (p2pConnect st sid u h) sid) uid = _
    unfold p2pConnect lastJoinStep
    rw [sessMembers_aupdate_self]
    rw [alookup_aupdate]
  | leave u =>
    show alookup (sessMembers (p2pDisconnect st sid u) sid) uid = _
    unfold p2pDisconnect lastJoinStep
    cases hsid : alookup st sid with
    | none =>
      unfold sessMembers
      rw [hsid]
      by_cases hu : u = uid <;> simp [hu, alookup]
    | some inner =>
      show alookup (sessMembers (if (alookup inner u).isSome = true then
            (if aerase inner u = [] then aerase st sid
             else aupdate st sid (aerase inner u))
          else st) sid) uid
        = if u = uid then none else alookup (sessMembers st sid) uid
      by_cases hin : (alookup inner u).isSome = true
      · rw [if_pos hin]
        by_cases hnil : aerase inner u = []
        · rw [if_pos hnil]
          unfold sessMembers
          rw [alookup_aerase]
          simp only [if_pos rfl]
          by_cases hu : u = uid
          · simp [hu, alookup]
          · have hnone : alookup inner uid = none :=
              alookup_none_of_aerase_nil hnil (Ne.symm hu)
            simp [hu, hsid, hnone, alookup]
        · rw [if_neg hnil]
          unfold sessMembers
          rw [alookup_aupdate, if_pos rfl, Option.getD_some, alookup_aerase, hsid,
            Option.getD_some]
      · rw [if_neg hin]
        by_cases hu : u = uid
        · subst hu
          have hnone : alookup inner u = none := by
            cases he : alookup inner u with
            | none => rfl
            | some x => rw [he] at hin; exact absurd rfl hin
          simp [sessMembers, hsid, hnone]
        · simp [sessMembers, hsid, hu]

/-- Folding the p2p operations matches folding the spec step. -/
theorem p2p_replay_fold (sid uid : String) (ops : List P2POp) (st : Sessions) :
    alookup (sessMembers (ops.foldl (p2pApply sid) st) sid) uid
      = ops.foldl (lastJoinStep uid) (alookup (sessMembers st sid) uid) := by
  induction ops generalizing st with
  | nil => rfl
  | cons op rest ih =>
    simp only [List.foldl_cons]
    rw [ih, p2p_step]

/-- One room operation moves membership exactly as the
joined-and-not-left step function does. -/
theorem room_step (rid : String) (hd : Handle) (st : Rooms) (op : RoomOp) :
    decide (hd ∈ roomMembers (roomApply rid st op) rid)
      = joinedStep hd (decide (hd ∈ roomMembers st rid)) op := by
  cases op with
  | join h =>
    show decide (hd ∈ roomMembers (roomConnect st rid h) rid) = _
    unfold roomConnect joinedStep
    unfold roomMembers
    rw [alookup_aupdate]
    simp only [if_pos rfl, Option.getD_some]
    by_cases hu : h = hd
    · subst hu
      simp [mem_setAdd]
    · have hu' : ¬ hd = h := fun he => hu he.symm
      simp [hu, hu', mem_setAdd]
  | leave h =>
    show decide (hd ∈ roomMembers (roomDisconnect st rid h) rid) = _
    unfold roomDisconnect joinedStep
    cases hsid : alookup st rid with
    | none =>
      unfold roomMembers
      rw [hsid]
      by_cases hu : h = hd <;> simp [hu]
    | some l =>
      show decide (hd ∈ roomMembers (if setDiscard l h = [] then aerase st rid
            else aupdate st rid (setDiscard l h)) rid)
        = if h = hd then false else decide (hd ∈ roomMembers st rid)
      by_cases hnil : setDiscard l h = []
      · rw [if_pos hnil]
        unfold roomMembers
        rw [alookup_aerase]
        simp only [if_pos rfl]
        by_cases hu : h = hd
        · simp [hu]
        · have hnm : hd ∉ (alookup st rid).getD [] := by
            rw [hsid]
            intro hmem
            exact hu ((eq_of_setDiscard_nil hnil hd hmem).symm)
          simp [hu, hnm]
      · rw [if_neg hnil]
        unfold roomMembers
        rw [alookup_aupdate]
        simp only [if_pos rfl, Option.getD_some]
        by_cases hu : h = hd
        · subst hu
          simp [mem_setDiscard]
        · have hu' : ¬ hd = h := fun he => hu he.symm
          simp [hu, hu', hsid, mem_setDiscard]

/-- Folding the room operations matches folding the spec step. -/
theorem room_replay_fold (rid : String) (hd : Handle) (ops : List RoomOp) (st : Rooms) :
    decide (hd ∈ roomMembers (ops.foldl (roomApply rid) st) rid)
      = ops.foldl (joinedStep hd) (decide (hd ∈ roomMembers st rid)) := by
  induction ops generalizing st with
  | nil => rfl
  | cons op rest ih =>
    simp only [List.foldl_cons]
    rw [ih, room_step]

/-- C8: replaying any finite sequence of join/leave operations on a
single scope-key from the empty registry yields exactly the set of
handles joined and not subsequently left, the most recent join winning
per identity: per participant in a p2p session (a repeated join
replaces the registered handle), and per handle in a room. -/
theorem c8_registry_replay (sid uid : String) (ops : List P2POp)
    (rid : String) (rops : List RoomOp) (hd : Handle) :
    alookup (sessMembers (p2pReplay sid ops) sid) uid = lastJoinP2P ops uid ∧
      (hd ∈ roomMembers (roomReplay rid rops) rid ↔ joinedNotLeft rops hd = true) := by
  constructor
  · unfold p2pReplay lastJoinP2P
    rw [p2p_replay_fold]
    rfl
  · unfold roomReplay joinedNotLeft
    have h := room_replay_fold rid hd rops []
    rw [show decide (hd ∈ roomMembers ([] : Rooms) rid) = false from rfl] at h
    constructor
    · intro hm
      rw [← h]
      exact decide_eq_true hm
    · intro hj
      rw [hj] at h
      exact of_decide_eq_true h


/-! ### Claim C9: self-healing broadcasts -/

/-- Discarding the failed members of the snapshot, pointwise. -/
theorem filter_dead_congr (l dead : List Handle) :
    l.filter (fun x => !(decide (x ∈ l) && decide (x ∈ dead)))
      = l.filter (fun h => decide (h ∉ dead)) :=
  List.filter_congr (fun x hx => by simp [hx])

/-- The common broadcast loop delivers exactly to the live snapshot. -/
theorem cmBroadcastLoop_snd (dead snap conns : List Handle) :
    (cmBroadcastLoop dead snap conns).2 = snap.filter (fun h => decide (h ∉ dead)) := by
  induction snap generalizing conns with
  | nil => rfl
  | cons c rest ih =>
    unfold cmBroadcastLoop
    by_cases hc : c ∈ dead
    · rw [if_pos hc, ih, List.filter_cons]
      simp [hc]
    · rw [if_neg hc]
      rw [List.filter_cons]
      simp only [hc, decide_not, decide_eq_true_eq]
      simp [hc, ih]

/-- The common broadcast loop discards exactly the snapshot members
whose send failed. -/
theorem cmBroadcastLoop_fst (dead snap conns : List Handle) :
    (cmBroadcastLoop dead snap conns).1
      = conns.filter (fun h => !(decide (h ∈ snap) && decide (h ∈ dead))) := by
  induction snap generalizing conns with
  | nil => simp [cmBroadcastLoop]
  | cons c rest ih =>
    unfold cmBroadcastLoop
    by_cases hc : c ∈ dead
    · rw [if_pos hc, ih]
      unfold setDiscard
      rw [List.filter_filter]
      apply List.filter_congr
      intro x hx
      by_cases h1 : x = c
      · subst h1
        simp [hc]
      · simp [h1, List.mem_cons]
    · rw [if_neg hc]
      rw [show ((let r := cmBroadcastLoop dead rest conns; (r.1, c :: r.2))).1
            = (cmBroadcastLoop dead rest conns).1 from rfl]
      rw [ih]
      apply List.filter_congr
      intro x hx
      by_cases h1 : x = c
      · subst h1
        simp [hc, List.mem_cons]
      · simp [h1, List.mem_cons]

/-- State of `ConnectionManager.broadcast`: the failed handles are gone,
the rest is kept. -/
theorem cmBroadcast_fst (conns dead : List Handle) :
    (cmBroadcast conns dead).1 = conns.filter (fun h => decide (h ∉ dead)) := by
  unfold cmBroadcast
  rw [cmBroadcastLoop_fst]
  apply List.filter_congr
  intro x hx
  simp [hx]

/-- Deliveries of `ConnectionManager.broadcast`. -/
theorem cmBroadcast_snd (conns dead : List Handle) :
    (cmBroadcast conns dead).2 = conns.filter (fun h => decide (h ∉ dead)) := by
  unfold cmBroadcast
  rw [cmBroadcastLoop_snd]

/-- The exception-handler discard keeps the looked-up room in place. -/
theorem roomDiscardRaw_lookup_self (rooms : Rooms) (rid : String) (c : Handle)
    (l : List Handle) (h : alookup rooms rid = some l) :
    alookup (roomDiscardRaw rooms rid c) rid = some (setDiscard l c) := by
  unfold roomDiscardRaw
  rw [h]
  rw [alookup_aupdate]
  simp

/-- The exception-handler discard leaves other rooms untouched. -/
theorem roomDiscardRaw_lookup_other (rooms : Rooms) (rid : String) (c : Handle)
    (k : String) (hk : k ≠ rid) :
    alookup (roomDiscardRaw rooms rid c) k = alookup rooms k := by
  unfold roomDiscardRaw
  cases h : alookup rooms rid <;>
    rw [alookup_aupdate, if_neg (Ne.symm hk)]

/-- The room broadcast loop delivers exactly to the live snapshot. -/
theorem roomBroadcastLoop_snd (rid : String) (dead snap : List Handle) (rooms : Rooms) :
    (roomBroadcastLoop rid dead snap rooms).2 = snap.filter (fun h => decide (h ∉ dead)) := by
  induction snap generalizing rooms with
  | nil => rfl
  | cons c rest ih =>
    unfold roomBroadcastLoop
    by_cases hc : c ∈ dead
    · rw [if_pos hc, ih, List.filter_cons]
      simp [hc]
    · rw [if_neg hc]
      rw [List.filter_cons]
      simp only [hc, decide_not, decide_eq_true_eq]
      simp [hc, ih]

/-- The room broadcast loop discards exactly the snapshot members whose
send failed. -/
theorem roomBroadcastLoop_fst_self (rid : String) (dead snap : List Handle)
    (rooms : Rooms) (l : List Handle) (h : alookup rooms rid = some l) :
    alookup (roomBroadcastLoop rid dead snap rooms).1 rid
      = some (l.filter (fun x => !(decide (x ∈ snap) && decide (x ∈ dead)))) := by
  induction snap generalizing rooms l with
  | nil => simpa using h
  | cons c rest ih =>
    unfold roomBroadcastLoop
    by_cases hc : c ∈ dead
    · rw [if_pos hc]
      rw [ih (roomDiscardRaw rooms rid c) (setDiscard l c)
        (roomDiscardRaw_lookup_self rooms rid c l h)]
      congr 1
      unfold setDiscard
      rw [List.filter_filter]
      apply List.filter_congr
      intro x hx
      by_cases h1 : x = c
      · subst h1
        simp [hc]
      · simp [h1, List.mem_cons]
    · rw [if_neg hc]
      rw [show ((let r := roomBroadcastLoop rid dead rest rooms; (r.1, c :: r.2))).1
            = (roomBroadcastLoop rid dead rest rooms).1 from rfl]
      rw [ih rooms l h]
      congr 1
      apply List.filter_congr
      intro x hx
      by_cases h1 : x = c
      · subst h1
        simp [hc, List.mem_cons]
      · simp [h1, List.mem_cons]

/-- The room broadcast loop leaves other rooms untouched. -/
theorem roomBroadcastLoop_fst_other (rid : String) (dead snap : List Handle)
    (rooms : Rooms) (k : String) (hk : k ≠ rid) :
    alookup (roomBroadcastLoop rid dead snap rooms).1 k = alookup rooms k := by
  induction snap generalizing rooms with
  | nil => rfl
  | cons c rest ih =>
    unfold roomBroadcastLoop
    by_cases hc : c ∈ dead
    · rw [if_pos hc, ih, roomDiscardRaw_lookup_other rooms rid c k hk]
    · rw [if_neg hc]
      exact ih rooms

/-- Unfolding of the final empty-room cleanup of the room broadcast. -/
theorem roomBroadcast_fst_eq (rooms : Rooms) (rid : String) (dead : List Handle) :
    (roomBroadcast rooms rid dead).1 =
      (match alookup (roomBroadcastLoop rid dead (roomMembers rooms rid) rooms).1 rid with
       | some [] => aerase (roomBroadcastLoop rid dead (roomMembers rooms rid) rooms).1 rid
       | _ => (roomBroadcastLoop rid dead (roomMembers rooms rid) rooms).1) := rfl

/-- After a room broadcast the room's member set is exactly the old set
minus the failed handles. -/
theorem roomBroadcast_members (rooms : Rooms) (rid : String) (dead : List Handle) :
    roomMembers (roomBroadcast rooms rid dead).1 rid
      = (roomMembers rooms rid).filter (fun h => decide (h ∉ dead)) := by
  rw [roomBroadcast_fst_eq]
  cases h : alookup rooms rid with
  | none =>
    have hm : roomMembers rooms rid = [] := by
      unfold roomMembers
      rw [h]
      rfl
    rw [hm]
    show roomMembers (match alookup rooms rid with
      | some [] => aerase rooms rid
      | _ => rooms) rid = []
    rw [show (match alookup rooms rid with
        | some [] => aerase rooms rid
        | _ => rooms) = rooms from by rw [h]]
    rw [hm]
  | some l =>
    have hm : roomMembers rooms rid = l := by
      unfold roomMembers
      rw [h]
      rfl
    rw [hm]
    have hl := roomBroadcastLoop_fst_self rid dead l rooms l h
    rw [hl]
    cases hcase : l.filter (fun x => !(decide (x ∈ l) && decide (x ∈ dead))) with
    | nil =>
      unfold roomMembers
      rw [alookup_aerase, if_pos rfl]
      rw [← filter_dead_congr, hcase]
      rfl
    | cons a as =>
      unfold roomMembers
      rw [hl, hcase]
      rw [← filter_dead_congr, hcase]
      rfl

/-- A room broadcast leaves other rooms untouched. -/
theorem roomBroadcast_other (rooms : Rooms) (rid : String) (dead : List Handle)
    (k : String) (hk : k ≠ rid) :
    alookup (roomBroadcast rooms rid dead).1 k = alookup rooms k := by
  rw [roomBroadcast_fst_eq]
  have hother := roomBroadcastLoop_fst_other rid dead (roomMembers rooms rid) rooms k hk
  cases hcase : alookup (roomBroadcastLoop rid dead (roomMembers rooms rid) rooms).1 rid with
  | none => simpa using hother
  | some l =>
    cases l with
    | nil =>
      rw [alookup_aerase, if_neg (Ne.symm hk)]
      exact hother
    | cons a as => simpa using hother

/-- Deliveries of the room broadcast. -/
theorem roomBroadcast_delivered (rooms : Rooms) (rid : String) (dead : List Handle) :
    (roomBroadcast rooms rid dead).2
      = (roomMembers rooms rid).filter (fun h => decide (h ∉ dead)) := by
  show (roomBroadcastLoop rid dead (roomMembers rooms rid) rooms).2 = _
  rw [roomBroadcastLoop_snd]

/-- C9: during a broadcast over a scope-key's snapshot, every member
whose delivery fails is removed from the registry, only those members
are removed (other keys and the surviving members are untouched), and
every member outside the failing set receives its delivery — for the
room manager and for the base (common) manager. -/
theorem c9_self_heal (rooms : Rooms) (rid : String) (dead conns : List Handle) :
    roomMembers (roomBroadcast rooms rid dead).1 rid
        = (roomMembers rooms rid).filter (fun h => decide (h ∉ dead)) ∧
      (∀ k, k ≠ rid → alookup (roomBroadcast rooms rid dead).1 k = alookup rooms k) ∧
      (roomBroadcast rooms rid dead).2
        = (roomMembers rooms rid).filter (fun h => decide (h ∉ dead)) ∧
      (cmBroadcast conns dead).1 = conns.filter (fun h => decide (h ∉ dead)) ∧
      (cmBroadcast conns dead).2 = conns.filter (fun h => decide (h ∉ dead)) :=
  ⟨roomBroadcast_members rooms rid dead,
   fun k hk => roomBroadcast_other rooms rid dead k hk,
   roomBroadcast_delivered rooms rid dead,
   cmBroadcast_fst conns dead,
   cmBroadcast_snd conns dead⟩

/-- Witness for C9 at a concrete registry with one failing handle. -/
theorem c9_self_heal_witness :
    roomMembers (roomBroadcast [("r", [1, 2]), ("q", [3])] "r" [2]).1 "r"
        = (roomMembers [("r", [1, 2]), ("q", [3])] "r").filter (fun h => decide (h ∉ [2])) ∧
      alookup (roomBroadcast [("r", [1, 2]), ("q", [3])] "r" [2]).1 "q"
        = alookup [("r", [1, 2]), ("q", [3])] "q" ∧
      (cmBroadcast [1, 2] [2]).2 = [1, 2].filter (fun h => decide (h ∉ [2])) := by
  have t := c9_self_heal [("r", [1, 2]), ("q", [3])] "r" [2] [1, 2]
  exact ⟨t.1, t.2.1 "q" (by decide), t.2.2.2.2⟩


/-! ### Claim C3: sender exclusion -/

/-- Every send attempt of the p2p loop is to a snapshot member whose
identity is outside the exclude set. -/
theorem p2pSendLoop_attempts (sid : String) (excl : List String) (dead : List Handle)
    (snap : List (String × Handle)) (sessions : Sessions) :
    ∀ p ∈ (p2pSendLoop sid excl dead snap sessions).2, p ∈ snap ∧ p.1 ∉ excl := by
  induction snap generalizing sessions with
  | nil =>
    intro p hp
    exact absurd hp (List.not_mem_nil p)
  | cons uc rest ih =>
    obtain ⟨u, c⟩ := uc
    intro p hp
    unfold p2pSendLoop at hp
    by_cases hu : u ∈ excl
    · rw [if_pos hu] at hp
      obtain ⟨hmem, hexcl⟩ := ih sessions p hp
      exact ⟨List.mem_cons_of_mem _ hmem, hexcl⟩
    · rw [if_neg hu] at hp
      by_cases hc : c ∈ dead
      · rw [if_pos hc] at hp
        rcases List.mem_cons.mp hp with hpe | hp'
        · subst hpe
          exact ⟨List.mem_cons_self _ _, hu⟩
        · obtain ⟨hmem, hexcl⟩ := ih (p2pDisconnect sessions sid u) p hp'
          exact ⟨List.mem_cons_of_mem _ hmem, hexcl⟩
      · rw [if_neg hc] at hp
        rcases List.mem_cons.mp hp with hpe | hp'
        · subst hpe
          exact ⟨List.mem_cons_self _ _, hu⟩
        · obtain ⟨hmem, hexcl⟩ := ih sessions p hp'
          exact ⟨List.mem_cons_of_mem _ hmem, hexcl⟩

/-- C3: on the p2p websocket path every send excludes the sender's user
id (no delivery is attempted for any identity in the exclude set),
whereas room-scope and common-scope broadcasts exclude nobody: any
registered live handle — in particular the sender's own — receives the
broadcast. -/
theorem c3_p2p_excludes_sender (sessions : Sessions) (sid : String) (m : Message)
    (dead : List Handle) (rooms : Rooms) (rid : String) (conns : List Handle)
    (hd : Handle) :
    (∀ p ∈ (p2pPathSend sessions sid m dead).2, ¬ p.1 = m.user_id) ∧
      (hd ∈ roomMembers rooms rid → hd ∉ dead →
        hd ∈ (roomBroadcast rooms rid dead).2) ∧
      (hd ∈ conns → hd ∉ dead → hd ∈ (cmBroadcast conns dead).2) := by
  refine ⟨?_, ?_, ?_⟩
  · intro p hp
    have h := (p2pSendLoop_attempts sid [m.user_id] dead
      (sessMembers sessions sid) sessions p hp).2
    intro he
    exact h (by rw [he]; exact List.mem_cons_self _ _)
  · intro hmem hlive
    rw [roomBroadcast_delivered]
    rw [List.mem_filter]
    exact ⟨hmem, by simpa using hlive⟩
  · intro hmem hlive
    rw [cmBroadcast_snd]
    rw [List.mem_filter]
    exact ⟨hmem, by simpa using hlive⟩

/-- Witness for C3 at a concrete session, room and common registry. -/
theorem c3_p2p_excludes_sender_witness :
    (∀ p ∈ (p2pPathSend [("s", [("alice", 5), ("bob", 7)])] "s" msgRoom []).2,
      ¬ p.1 = msgRoom.user_id) ∧
      (7 : Handle) ∈ (roomBroadcast [("r", [7, 9])] "r" [9]).2 ∧
      (1 : Handle) ∈ (cmBroadcast [1, 2] [2]).2 := by
  have t := c3_p2p_excludes_sender [("s", [("alice", 5), ("bob", 7)])] "s" msgRoom
    [] [("r", [7, 9])] "r" [1, 2] 0
  have t7 := c3_p2p_excludes_sender [("s", [("alice", 5), ("bob", 7)])] "s" msgRoom
    [9] [("r", [7, 9])] "r" [1, 2] 7
  have t1 := c3_p2p_excludes_sender [("s", [("alice", 5), ("bob", 7)])] "s" msgRoom
    [2] [("r", [7, 9])] "r" [1, 2] 1
  exact ⟨t.1, t7.2.1 (by decide) (by decide), t1.2.2 (by decide) (by decide)⟩

end ChatServer
